import Mathlib

/-!
# Verification of the `DataAnalyzer` module (`src/data_analyzer.rs`)

Shallow embedding of the `DataAnalyzer` module of the RustQuant-nano
repository, together with theorems settling the specification claims.

Modelling conventions:
* Rust `f64` input values are modelled by the inductive type `FV`: a finite
  value carries an exact rational, and the non-finite values `+inf`, `-inf`
  and `NaN` are explicit constructors.  This lets the embedding express the
  source's `is_nan() / is_infinite() / value <= 0.0` validity checks on
  input series faithfully.
* Decimal literals of the source (`0.05`, `252.0`) are modelled by the exact
  rationals they denote.  Arithmetic that stays in the field operations is
  carried out in `ℚ`; the quantities that use `sqrt`/`powf` (volatility,
  annualization, Sharpe/Sortino/information ratios, alpha, tracking error)
  live in `ℝ` via `Real.sqrt` and real exponentiation.  The Sortino ratio,
  which the source deliberately sets to `f64::INFINITY` when no downside
  returns exist, is modelled in `EReal` so that positive infinity is a
  value, as in the source.
* The source's `calculate_metrics` performs only pure arithmetic between its
  two early-out error returns (`"Insufficient data..."` at the top and
  `"Asset history contains invalid or zero values"` before the drawdown
  loop); since that arithmetic cannot fail, the embedding factors the body
  into the pure `metrics_of` guarded by the two checks in their control-flow
  order.
* Side effects (logging, pixel rendering) are out of scope per the spec; the
  render pass `plot` is modelled by the decision data it produces: which
  branch is taken (`no update` skip / `no data` skip / an actual render with
  its output path and canvas size), the error it propagates, and the updated
  memoized length pair (`last_lengths` is an `&mut` parameter in the source,
  modelled by returning the new pair).
-/

/-- An `f64` value as consumed by the analyzer: an exact finite rational or
one of the non-finite IEEE values. -/
inductive FV where
  | fin (q : ℚ)
  | pinf
  | ninf
  | nan
deriving DecidableEq, Repr

/-- `f64::is_nan`. -/
def FV.isNan : FV → Bool
  | .nan => true
  | _ => false

/-- `f64::is_infinite`. -/
def FV.isInfinite : FV → Bool
  | .pinf => true
  | .ninf => true
  | _ => false

/-- The comparison `value <= 0.0` on an `f64` (false for NaN). -/
def FV.le_zero : FV → Bool
  | .fin q => decide (q ≤ 0)
  | .ninf => true
  | _ => false

/-- The validity test of `calculate_metrics` on one asset value:
`value.is_nan() || value.is_infinite() || value <= 0.0`. -/
def FV.is_invalid (v : FV) : Bool := v.isNan || v.isInfinite || v.le_zero

/-- The rational carried by a finite value (junk `0` on non-finite values;
every use below is guarded so that only finite values reach it, except for
market values, which the source never validates — there the junk value
stands for the unspecified non-finite `f64` propagation). -/
def FV.toQ : FV → ℚ
  | .fin q => q
  | _ => 0

/-- The two explicit failure values of `calculate_metrics`
(`"Insufficient data for metrics calculation"` and
`"Asset history contains invalid or zero values"`). -/
inductive AnalyzerError where
  | insufficientData
  | invalidSeriesValue
deriving DecidableEq, Repr

/-- The `Metrics` struct.  Fields whose source computation stays inside
field arithmetic are `ℚ`; fields that use `sqrt`/`powf` are `ℝ`;
`sortino_ratio` is `EReal` because the source assigns `f64::INFINITY`. -/
structure Metrics where
  market_return : ℚ
  portfolio_return : ℚ
  annualized_portfolio_return : ℝ
  volatility : ℝ
  sharpe_ratio : ℝ
  max_drawdown : ℚ
  alpha : ℝ
  beta : ℚ
  sortino_ratio : EReal
  information_ratio : ℝ
  tracking_error : ℝ
  longest_drawdown : ℕ

/-- The numeric column of a history series (timestamps dropped). -/
def series_values (s : List (String × FV)) : List ℚ := s.map fun p => p.2.toQ

/-- `windows(2).map(|w| (w[1].1 - w[0].1) / w[0].1)`: per-step simple
returns over consecutive values. -/
def period_returns (vs : List ℚ) : List ℚ :=
  (vs.zip vs.tail).map fun w => (w.2 - w.1) / w.1

/-- Cumulative market return: `fold(1.0, |acc, r| acc * (1.0 + r)) - 1.0`. -/
def market_return_of (brs : List ℚ) : ℚ :=
  brs.foldl (fun acc r => acc * (1 + r)) 1 - 1

/-- One iteration of the max-drawdown loop: the state is
`(peak, max_drawdown)`; the peak is raised first, then the drawdown at the
current value is folded in (guarded by `peak > 0`). -/
def dd_step (pm : ℚ × ℚ) (value : ℚ) : ℚ × ℚ :=
  let peak := if value > pm.1 then value else pm.1
  if peak > 0 then (peak, min pm.2 (value / peak - 1)) else (peak, pm.2)

/-- The max-drawdown forward pass of `calculate_metrics`: peak initialized
to the first value (`unwrap_or(0.0)`), accumulator starting at `0.0`. -/
def max_drawdown_of (vs : List ℚ) : ℚ :=
  (vs.foldl dd_step (vs.headD 0, 0)).2

/-- The negative period returns: `returns.filter(|&r| r < 0.0)`. -/
def downside_of (rs : List ℚ) : List ℚ := rs.filter fun r => r < 0

/-- One iteration of the longest-drawdown loop (state:
`(peak, drawdown_start, longest_drawdown)`, input `(i, value)`; `len` is
the series length, for the `i == asset_history.len() - 1` test). -/
def ld_step (len : ℕ) (st : ℚ × Option ℕ × ℕ) (iv : ℕ × ℚ) : ℚ × Option ℕ × ℕ :=
  let i := iv.1
  let value := iv.2
  let peak := st.1
  let ds := st.2.1
  let longest := st.2.2
  let closed : Option ℕ × ℕ :=
    match ds with
    | some j =>
      if value ≥ peak ∨ i = len - 1 then (none, max longest (i - j)) else (some j, longest)
    | none => (none, longest)
  if value > peak then
    (value, none, closed.2)
  else if value < peak then
    (peak, (if closed.1.isNone then some i else closed.1), closed.2)
  else
    (peak, closed.1, closed.2)

/-- The longest-drawdown scan of `calculate_metrics`. -/
def longest_drawdown_of (vs : List ℚ) : ℕ :=
  (vs.enum.foldl (ld_step vs.length) (vs.headD 0, none, 0)).2.2

/-- The local `downside_deviation` of `calculate_metrics`: root mean
square of the negative period returns, `0.0` when there are none. -/
noncomputable def downside_deviation_of (rs : List ℚ) : ℝ :=
  if downside_of rs ≠ [] then
    Real.sqrt ((((downside_of rs).map fun r => r ^ 2).sum /
      ((downside_of rs).length : ℚ) : ℚ) : ℝ)
  else 0

/-- The local `sortino_ratio` of `calculate_metrics` (`aer` is the local
`annualized_excess_return`): the quotient when the downside deviation is
positive, `f64::INFINITY` otherwise. -/
noncomputable def sortino_ratio_of (aer : ℚ) (rs : List ℚ) : EReal :=
  if 0 < downside_deviation_of rs then
    (((aer : ℝ) / (downside_deviation_of rs * Real.sqrt 252) : ℝ) : EReal)
  else (⊤ : EReal)

/-- The local `annualized_market_return` of `calculate_metrics`:
`(1.0 + market_return).powf(252.0 / n) - 1.0` where `n` is the number of
portfolio period returns. -/
noncomputable def annualized_market_return_of
    (market_data asset_history : List (String × FV)) : ℝ :=
  (1 + (market_return_of (period_returns (series_values market_data)) : ℝ)) ^
    ((252 : ℝ) / ((period_returns (series_values asset_history)).length : ℝ)) - 1

/-- The body of `calculate_metrics` after its two validity checks, local by
local in source order. -/
noncomputable def metrics_of (market_data asset_history : List (String × FV)) : Metrics :=
  let asset_values := series_values asset_history
  let returns := period_returns asset_values
  let benchmark_returns := period_returns (series_values market_data)
  let market_return := market_return_of benchmark_returns
  let portfolio_return := asset_values.getLastD 0 / asset_values.headD 0 - 1
  let n : ℚ := (returns.length : ℚ)
  let annualized_portfolio_return : ℝ :=
    (1 + (portfolio_return : ℝ)) ^ ((252 : ℝ) / ((returns.length : ℝ))) - 1
  let mean_return : ℚ := returns.sum / n
  let variance : ℚ := (returns.map fun r => (r - mean_return) ^ 2).sum / (n - 1)
  let volatility : ℝ := Real.sqrt (variance : ℝ)
  let annualized_mean_return : ℚ := mean_return * 252
  let annualized_excess_return : ℚ := annualized_mean_return - 0.05
  let annualized_volatility : ℝ := volatility * Real.sqrt 252
  let sharpe_ratio : ℝ := (annualized_excess_return : ℝ) / annualized_volatility
  let max_drawdown : ℚ := max_drawdown_of asset_values
  let sortino_ratio : EReal := sortino_ratio_of annualized_excess_return returns
  let covariance : ℚ := ((returns.zip benchmark_returns).map fun p => p.1 * p.2).sum
  let benchmark_sq_sum : ℚ := (benchmark_returns.map fun r => r ^ 2).sum
  let beta : ℚ := covariance / benchmark_sq_sum
  let risk_free_rate : ℝ := 0.05
  let alpha : ℝ := annualized_portfolio_return - risk_free_rate -
    (beta : ℝ) * (annualized_market_return_of market_data asset_history - risk_free_rate)
  let excess_returns := (returns.zip benchmark_returns).map fun p => p.1 - p.2
  let mean_excess_return : ℚ := excess_returns.sum / (excess_returns.length : ℚ)
  let excess_return_variance : ℚ :=
    (excess_returns.map fun r => (r - mean_excess_return) ^ 2).sum /
      ((excess_returns.length : ℚ) - 1)
  let tracking_error : ℝ := Real.sqrt (excess_return_variance : ℝ)
  let information_ratio : ℝ := (mean_excess_return : ℝ) / tracking_error
  let longest_drawdown : ℕ := longest_drawdown_of asset_values
  { market_return := market_return
    portfolio_return := portfolio_return
    annualized_portfolio_return := annualized_portfolio_return
    volatility := volatility
    sharpe_ratio := sharpe_ratio
    max_drawdown := max_drawdown
    alpha := alpha
    beta := beta
    sortino_ratio := sortino_ratio
    information_ratio := information_ratio
    tracking_error := tracking_error
    longest_drawdown := longest_drawdown }

/-- `calculate_metrics`: the two explicit failure checks in control-flow
order (empty-series check at entry; asset-value validity check, which in
the source precedes any produced result), then the pure metrics body. -/
noncomputable def calculate_metrics (market_data asset_history : List (String × FV)) :
    Except AnalyzerError Metrics :=
  if market_data = [] ∨ asset_history = [] then
    .error .insufficientData
  else if asset_history.any (fun p => p.2.is_invalid) then
    .error .invalidSeriesValue
  else
    .ok (metrics_of market_data asset_history)

example : period_returns [100, 110, 121] = [1/10, 1/10] := by
  norm_num [period_returns]
example : max_drawdown_of [100, 90, 80, 95, 100] = -(1/5) := by
  norm_num [max_drawdown_of, dd_step]
example : longest_drawdown_of [100, 90, 95, 80, 100, 100] = 3 := by
  norm_num [longest_drawdown_of, ld_step, List.enum]

/-- Outcome of one invocation of the render pass `plot`, as observable
decision data: the "no update" skip, the "no data points" skip, or an
actual render carrying the output path and the fixed canvas resolution
(`res_x`, `res_y`). -/
inductive PlotAction where
  | noUpdate
  | noData
  | rendered (output_path : String) (res_x res_y : ℕ)
deriving DecidableEq, Repr

/-- The render pass `plot`.  The source mutates `last_lengths : &mut
(usize, usize)`; the embedding returns the pair alongside the result.
Branches in source order: the memo skip, the memo overwrite, the empty-data
skip, the metrics computation (whose error is propagated), then the render
on the fixed 3840×2160 canvas at `output_path`. -/
noncomputable def plot (market_data asset_history : List (String × FV))
    (_cash_history : List (String × FV)) (last_lengths : ℕ × ℕ)
    (output_path : String) : Except AnalyzerError PlotAction × (ℕ × ℕ) :=
  if market_data.length = last_lengths.1 ∧ asset_history.length = last_lengths.2 then
    (.ok .noUpdate, last_lengths)
  else
    let last_lengths' := (market_data.length, asset_history.length)
    if market_data = [] ∧ asset_history = [] then
      (.ok .noData, last_lengths')
    else
      match calculate_metrics market_data asset_history with
      | .error e => (.error e, last_lengths')
      | .ok _ => (.ok (.rendered output_path 3840 2160), last_lengths')

/-- `Portfolio` (from `shared_structures.rs`); `positions` is the
symbol-to-amount map, modelled as an association list. -/
structure Portfolio where
  asset : FV
  cash : FV
  available_cash : FV
  positions : List (String × Int)
deriving DecidableEq, Repr

/-- `Portfolio::new(initial_cash)`. -/
def Portfolio.new (initial_cash : FV) : Portfolio :=
  { asset := initial_cash
    cash := initial_cash
    available_cash := initial_cash
    positions := [] }

/-- `MarketDataEvent`; only `timestamp` and `close` are consumed here. -/
structure MarketDataEvent where
  id : ℕ
  symbol : String
  timestamp : String
  «open» : FV
  close : FV
  high : FV
  low : FV
  volume : Int
deriving DecidableEq, Repr

/-- `PortfolioInfoEvent`. -/
structure PortfolioInfoEvent where
  id : ℕ
  portfolio : Portfolio
deriving DecidableEq, Repr

/-- `ShutDownEvent`. -/
structure ShutDownEvent where
  id : ℕ
deriving DecidableEq, Repr

/-- `OrderDirection`. -/
inductive OrderDirection where
  | buy
  | sell
deriving DecidableEq, Repr

/-- `LimitPriceOrder`. -/
structure LimitPriceOrder where
  symbol : String
  amount : Int
  limit_price : FV
  direction : OrderDirection
deriving DecidableEq, Repr

/-- `Order`. -/
inductive Order where
  | LimitPrice (o : LimitPriceOrder)
deriving DecidableEq, Repr

/-- `OrderPlaceEvent`: the event kind the analyzer does not recognize. -/
structure OrderPlaceEvent where
  id : ℕ
  order : Order
deriving DecidableEq, Repr

/-- The closed `Event` union of `shared_structures.rs`. -/
inductive Event where
  | MarketData (e : MarketDataEvent)
  | OrderPlace (e : OrderPlaceEvent)
  | PortfolioInfo (e : PortfolioInfoEvent)
  | ShutDown (e : ShutDownEvent)
deriving DecidableEq, Repr

/-- Whether an event is the shutdown signal. -/
def Event.isShutDown : Event → Bool
  | .ShutDown _ => true
  | _ => false

/-- The mutable state of a `DataAnalyzer` (channels are the transport's
concern and carry no analyzer state). -/
structure DataAnalyzer where
  market_data_history : List (String × FV)
  asset_history : List (String × FV)
  cash_history : List (String × FV)
  local_portfolio : Portfolio
deriving DecidableEq, Repr

/-- `DataAnalyzer::new()`. -/
def DataAnalyzer.new : DataAnalyzer :=
  { market_data_history := []
    asset_history := []
    cash_history := []
    local_portfolio := Portfolio.new (.fin 0) }

/-- `process_marketevent`: push `(timestamp, close)` onto the market
history. -/
def process_marketevent (s : DataAnalyzer) (e : MarketDataEvent) : DataAnalyzer :=
  { s with market_data_history := s.market_data_history ++ [(e.timestamp, e.close)] }

/-- `process_portfolioinfo`: store the portfolio, then — only if a last
market timestamp exists — push `(timestamp, asset)` and `(timestamp,
cash)` onto the asset and cash histories. -/
def process_portfolioinfo (s : DataAnalyzer) (e : PortfolioInfoEvent) : DataAnalyzer :=
  let s' := { s with local_portfolio := e.portfolio }
  match s'.market_data_history.getLast? with
  | some latest =>
    { s' with
        asset_history := s'.asset_history ++ [(latest.1, s'.local_portfolio.asset)]
        cash_history := s'.cash_history ++ [(latest.1, s'.local_portfolio.cash)] }
  | none => s'

/-- `shut_down`: snapshot the three histories and run one render pass with
the dummy memo `(0, 0)` and the module-chosen path `"sample_output.png"`.
The analyzer state is not changed; the observable result is the plot
outcome. -/
noncomputable def shut_down (s : DataAnalyzer) : Except AnalyzerError PlotAction × (ℕ × ℕ) :=
  plot s.market_data_history s.asset_history s.cash_history (0, 0) "sample_output.png"

/-- One iteration of the `run` dispatch loop: the updated state and whether
the loop breaks.  Market and portfolio events are recorded; shutdown runs
the final render and breaks; any other kind (here `OrderPlace`) is logged
and ignored. -/
noncomputable def runStep (s : DataAnalyzer) (e : Event) : DataAnalyzer × Bool :=
  match e with
  | .MarketData m => (process_marketevent s m, false)
  | .PortfolioInfo p => (process_portfolioinfo s p, false)
  | .ShutDown sd =>
    let _ := shut_down s
    let _ := sd
    (s, true)
  | .OrderPlace _ => (s, false)

/-- The `run` loop over a finite sequence of delivered events: the final
state and whether the loop terminated (it only does on a shutdown
event). -/
noncomputable def runLoop : DataAnalyzer → List Event → DataAnalyzer × Bool
  | s, [] => (s, false)
  | s, e :: rest =>
    let p := runStep s e
    if p.2 then (p.1, true) else runLoop p.1 rest

/-- The asset series of the spec's drawdown example, values
`[100, 90, 80, 95, 100]`. -/
def ddExampleAsset : List (String × FV) :=
  [("d1", .fin 100), ("d2", .fin 90), ("d3", .fin 80), ("d4", .fin 95), ("d5", .fin 100)]

/-- A benchmark series accompanying the drawdown example. -/
def ddExampleMarket : List (String × FV) :=
  [("d1", .fin 500), ("d2", .fin 505), ("d3", .fin 490), ("d4", .fin 500), ("d5", .fin 510)]

/-- The asset series of the spec's total-return example, values
`[100, 110, 121]`. -/
def prExampleAsset : List (String × FV) :=
  [("d1", .fin 100), ("d2", .fin 110), ("d3", .fin 121)]

/-- A benchmark series accompanying the total-return example. -/
def prExampleMarket : List (String × FV) :=
  [("d1", .fin 500), ("d2", .fin 505), ("d3", .fin 510)]

/-- Alignment invariant: every asset and cash observation carries a
timestamp that occurs in the market series. -/
def tsAligned (s : DataAnalyzer) : Prop :=
  (∀ p ∈ s.asset_history, p.1 ∈ s.market_data_history.map Prod.fst) ∧
  (∀ p ∈ s.cash_history, p.1 ∈ s.market_data_history.map Prod.fst)

/-- A concrete analyzer state whose shutdown pass reaches rendering. -/
def renderExampleState : DataAnalyzer :=
  { market_data_history := prExampleMarket
    asset_history := prExampleAsset
    cash_history := [("d1", .fin 50), ("d2", .fin 50), ("d3", .fin 50)]
    local_portfolio := Portfolio.new (.fin 0) }

/-! ## Helper lemmas -/

/-- A strictly positive finite value passes the validity check. -/
lemma FV.is_invalid_fin_pos {q : ℚ} (h : 0 < q) : (FV.fin q).is_invalid = false := by
  simp only [FV.is_invalid, FV.isNan, FV.isInfinite, FV.le_zero, Bool.or_self,
    Bool.false_or, decide_eq_false_iff_not, not_le]
  exact h

/-- Inversion for the success case of `calculate_metrics`. -/
lemma calculate_metrics_ok_iff {market asset : List (String × FV)} {m : Metrics} :
    calculate_metrics market asset = .ok m ↔
      market ≠ [] ∧ asset ≠ [] ∧
      asset.any (fun p => p.2.is_invalid) = false ∧
      m = metrics_of market asset := by
  unfold calculate_metrics
  split_ifs with h1 h2
  · rcases h1 with h | h <;> simp [h]
  · push_neg at h1
    simp [h2, h1.1, h1.2]
  · push_neg at h1
    simp only [Bool.not_eq_true] at h2
    simp [h1.1, h1.2, h2, eq_comm]

/-- The max-drawdown accumulator never leaves the nonpositive range. -/
lemma dd_foldl_nonpos :
    ∀ (l : List ℚ) (p md : ℚ), md ≤ 0 → (l.foldl dd_step (p, md)).2 ≤ 0 := by
  intro l
  induction l with
  | nil => intro p md h; simpa using h
  | cons v t ih =>
    intro p md h
    simp only [List.foldl_cons]
    have hstep : (dd_step (p, md) v).2 ≤ 0 := by
      unfold dd_step
      dsimp only
      split_ifs <;> simp only
      all_goals first
        | exact le_trans (min_le_left _ _) h
        | exact h
    have : dd_step (p, md) v = ((dd_step (p, md) v).1, (dd_step (p, md) v).2) := rfl
    rw [this]
    exact ih _ _ hstep

/-- The max drawdown of any series is nonpositive. -/
lemma max_drawdown_of_nonpos (vs : List ℚ) : max_drawdown_of vs ≤ 0 :=
  dd_foldl_nonpos vs _ 0 le_rfl

/-! ## C1 -/

/-- **C1 (amended)**: `calculate_metrics` fails with `InsufficientData`
exactly when either input series is empty (0 points); a series with one
point passes this check and the computation proceeds. -/
theorem C1_insufficient_iff_empty (market asset : List (String × FV)) :
    calculate_metrics market asset = .error .insufficientData ↔
      market = [] ∨ asset = [] := by
  unfold calculate_metrics
  split_ifs with h1 h2
  · simp [h1]
  · simp [h1]
  · simp [h1]

/-- **C1 witness**: on two empty series the computation does fail with
`InsufficientData`. -/
theorem C1_insufficient_iff_empty_witness :
    calculate_metrics [] [] = .error .insufficientData :=
  (C1_insufficient_iff_empty [] []).mpr (Or.inl rfl)

/-- **C1 counterexample**: with exactly one point in each series (fewer
than 2), `calculate_metrics` does *not* fail with `InsufficientData` — the
source only checks `is_empty()`. -/
theorem C1_counterexample :
    ([(("2024-01-02" : String), FV.fin 100)] : List (String × FV)).length < 2 ∧
    calculate_metrics [("2024-01-02", FV.fin 100)] [("2024-01-02", FV.fin 100)] ≠
      .error .insufficientData := by
  refine ⟨by simp, ?_⟩
  have h : calculate_metrics [("2024-01-02", FV.fin 100)] [("2024-01-02", FV.fin 100)] =
      .ok (metrics_of [("2024-01-02", FV.fin 100)] [("2024-01-02", FV.fin 100)]) := by
    rw [calculate_metrics_ok_iff]
    refine ⟨by simp, by simp, ?_, rfl⟩
    simp [FV.is_invalid_fin_pos (by norm_num : (0:ℚ) < 100)]
  rw [h]
  simp

/-! ## C2 -/


/-- **C2**: once past the emptiness check, `calculate_metrics` fails with
`InvalidSeriesValue` whenever some asset value is NaN, infinite or `≤ 0`
(so no metrics, in particular no drawdown, are produced); on every
accepted input the `max_drawdown` field is the single forward-pass
running-peak minimum of `value/peak - 1` (starting from `0`) and is
nonpositive; on the asset values `[100, 90, 80, 95, 100]` it equals
`-0.20`. -/
theorem C2_invalid_check_and_max_drawdown :
    (∀ market asset : List (String × FV), market ≠ [] →
        asset.any (fun p => p.2.is_invalid) = true →
        calculate_metrics market asset = .error .invalidSeriesValue) ∧
    (∀ market asset : List (String × FV), ∀ m : Metrics,
        calculate_metrics market asset = .ok m →
        m.max_drawdown = max_drawdown_of (series_values asset) ∧ m.max_drawdown ≤ 0) ∧
    (∀ m : Metrics,
        calculate_metrics ddExampleMarket ddExampleAsset = .ok m →
        m.max_drawdown = -(1/5)) := by
  have hgen : ∀ market asset : List (String × FV), ∀ m : Metrics,
      calculate_metrics market asset = .ok m →
      m.max_drawdown = max_drawdown_of (series_values asset) ∧ m.max_drawdown ≤ 0 := by
    intro market asset m h
    rw [calculate_metrics_ok_iff] at h
    obtain ⟨-, -, -, rfl⟩ := h
    exact ⟨rfl, max_drawdown_of_nonpos _⟩
  refine ⟨?_, hgen, ?_⟩
  · intro market asset hm hinv
    unfold calculate_metrics
    have hne : asset ≠ [] := by
      rintro rfl
      simp at hinv
    rw [if_neg (by simp [hm, hne]), if_pos hinv]
  · intro m h
    have h2 := (hgen _ _ _ h).1
    rw [h2]
    norm_num [ddExampleAsset, series_values, FV.toQ, max_drawdown_of, dd_step]

/-- **C2 witness**: the invalid-value branch fires on an asset value `0`,
and on the `[100, 90, 80, 95, 100]` example the computed metrics carry
`max_drawdown = -0.20 ≤ 0`. -/
theorem C2_invalid_check_and_max_drawdown_witness :
    calculate_metrics ddExampleMarket [("d1", FV.fin 0)] = .error .invalidSeriesValue ∧
    ∃ m, calculate_metrics ddExampleMarket ddExampleAsset = .ok m ∧
      m.max_drawdown = -(1/5) ∧ m.max_drawdown ≤ 0 := by
  have hmain := C2_invalid_check_and_max_drawdown
  constructor
  · refine hmain.1 ddExampleMarket [("d1", FV.fin 0)] (by simp [ddExampleMarket]) ?_
    simp [FV.is_invalid, FV.le_zero]
  · have hok : calculate_metrics ddExampleMarket ddExampleAsset =
        .ok (metrics_of ddExampleMarket ddExampleAsset) := by
      rw [calculate_metrics_ok_iff]
      refine ⟨by simp [ddExampleMarket], by simp [ddExampleAsset], ?_, rfl⟩
      simp only [ddExampleAsset, List.any_cons, List.any_nil]
      norm_num [FV.is_invalid, FV.isNan, FV.isInfinite, FV.le_zero]
    refine ⟨_, hok, hmain.2.2 _ hok, (hmain.2.1 _ _ _ hok).2⟩

/-! ## C5 -/

/-- No downside returns means no negative period return. -/
lemma downside_of_eq_nil_iff (rs : List ℚ) :
    downside_of rs = [] ↔ ∀ r ∈ rs, 0 ≤ r := by
  rw [downside_of, List.filter_eq_nil_iff]
  simp [not_lt]

/-- With at least one negative return the mean square of the downside
returns is strictly positive. -/
lemma downside_mean_sq_pos {rs : List ℚ} (h : downside_of rs ≠ []) :
    0 < ((downside_of rs).map fun r => r ^ 2).sum / ((downside_of rs).length : ℚ) := by
  apply div_pos
  · apply List.sum_pos
    · intro x hx
      obtain ⟨r, hr, rfl⟩ := List.mem_map.mp hx
      have hrneg : r < 0 := by
        have := List.mem_filter.mp hr
        simpa using this.2
      rw [pow_two]
      exact mul_pos_of_neg_of_neg hrneg hrneg
    · exact fun hc => h (List.map_eq_nil_iff.mp hc)
  · exact_mod_cast List.length_pos.mpr h

/-- The downside deviation is positive exactly when a negative period
return exists. -/
lemma downside_deviation_of_pos_iff (rs : List ℚ) :
    0 < downside_deviation_of rs ↔ downside_of rs ≠ [] := by
  unfold downside_deviation_of
  split_ifs with h
  · refine iff_of_true ?_ h
    apply Real.sqrt_pos.mpr
    exact_mod_cast downside_mean_sq_pos h
  · simp only [not_not] at h
    exact iff_of_false (by norm_num) (fun hc => hc h)

/-- The Sortino value is `+∞` exactly when no period return is negative. -/
lemma sortino_ratio_of_eq_top_iff (aer : ℚ) (rs : List ℚ) :
    sortino_ratio_of aer rs = ⊤ ↔ ∀ r ∈ rs, 0 ≤ r := by
  unfold sortino_ratio_of
  split_ifs with h
  · rw [downside_deviation_of_pos_iff] at h
    constructor
    · intro hc
      exact absurd hc (EReal.coe_ne_top _)
    · intro hall
      exact absurd ((downside_of_eq_nil_iff rs).mpr hall) h
  · rw [downside_deviation_of_pos_iff, not_not, downside_of_eq_nil_iff] at h
    exact iff_of_true rfl h

/-- **C5**: on every accepted input, the `sortino_ratio` field is positive
infinity exactly when no portfolio period return is negative, and is a
finite value (neither `+∞` nor `-∞`) as soon as one period return is
negative. -/
theorem C5_sortino_infinite_iff_no_downside :
    ∀ market asset : List (String × FV), ∀ m : Metrics,
      calculate_metrics market asset = .ok m →
      (m.sortino_ratio = ⊤ ↔ ∀ r ∈ period_returns (series_values asset), 0 ≤ r) ∧
      ((∃ r ∈ period_returns (series_values asset), r < 0) →
        m.sortino_ratio ≠ ⊤ ∧ m.sortino_ratio ≠ ⊥) := by
  intro market asset m h
  rw [calculate_metrics_ok_iff] at h
  obtain ⟨-, -, -, rfl⟩ := h
  have hs : (metrics_of market asset).sortino_ratio =
      sortino_ratio_of
        ((period_returns (series_values asset)).sum /
            ((period_returns (series_values asset)).length : ℚ) * 252 - 0.05)
        (period_returns (series_values asset)) := rfl
  constructor
  · rw [hs, sortino_ratio_of_eq_top_iff]
  · intro hneg
    obtain ⟨r, hr, hrneg⟩ := hneg
    have hds : downside_of (period_returns (series_values asset)) ≠ [] := by
      rw [Ne, downside_of_eq_nil_iff]
      push_neg
      exact ⟨r, hr, hrneg⟩
    rw [hs]
    unfold sortino_ratio_of
    rw [if_pos ((downside_deviation_of_pos_iff _).mpr hds)]
    exact ⟨EReal.coe_ne_top _, EReal.coe_ne_bot _⟩

/-- **C5 witness**: on the `[100, 90, 80, 95, 100]` asset example (which
has negative period returns) the Sortino ratio is finite, and for a
strictly rising asset series it is `+∞`. -/
theorem C5_sortino_infinite_iff_no_downside_witness :
    ∃ m, calculate_metrics ddExampleMarket ddExampleAsset = .ok m ∧
      m.sortino_ratio ≠ ⊤ ∧ m.sortino_ratio ≠ ⊥ := by
  have hok : calculate_metrics ddExampleMarket ddExampleAsset =
      .ok (metrics_of ddExampleMarket ddExampleAsset) := by
    rw [calculate_metrics_ok_iff]
    refine ⟨by simp [ddExampleMarket], by simp [ddExampleAsset], ?_, rfl⟩
    simp only [ddExampleAsset, List.any_cons, List.any_nil]
    norm_num [FV.is_invalid, FV.isNan, FV.isInfinite, FV.le_zero]
  refine ⟨_, hok, ?_⟩
  apply (C5_sortino_infinite_iff_no_downside ddExampleMarket ddExampleAsset _ hok).2
  refine ⟨-(1/10), ?_, by norm_num⟩
  norm_num [ddExampleAsset, series_values, FV.toQ, period_returns]

/-! ## C6 -/


/-- **C6**: on every accepted input, the `portfolio_return` field equals
`asset[last] / asset[first] - 1`; on the asset values `[100, 110, 121]` it
equals `0.21` exactly. -/
theorem C6_portfolio_return_total :
    (∀ market asset : List (String × FV), ∀ m : Metrics,
        calculate_metrics market asset = .ok m →
        ∀ h : series_values asset ≠ [],
          m.portfolio_return =
            (series_values asset).getLast h / (series_values asset).head h - 1) ∧
    (∀ m : Metrics,
        calculate_metrics prExampleMarket prExampleAsset = .ok m →
        m.portfolio_return = 21/100) := by
  have hgen : ∀ market asset : List (String × FV), ∀ m : Metrics,
      calculate_metrics market asset = .ok m →
      m.portfolio_return =
        (series_values asset).getLastD 0 / (series_values asset).headD 0 - 1 := by
    intro market asset m h
    rw [calculate_metrics_ok_iff] at h
    obtain ⟨-, -, -, rfl⟩ := h
    rfl
  constructor
  · intro market asset m h hne
    rw [hgen market asset m h, List.getLastD_eq_getLast?, List.getLast?_eq_getLast _ hne,
      Option.getD_some, List.headD_eq_head?, List.head?_eq_head hne, Option.getD_some]
  · intro m h
    rw [hgen _ _ _ h]
    norm_num [prExampleAsset, series_values, FV.toQ]

/-- **C6 witness**: the `[100, 110, 121]` example is accepted and its
total portfolio return is `0.21`. -/
theorem C6_portfolio_return_total_witness :
    ∃ m, calculate_metrics prExampleMarket prExampleAsset = .ok m ∧
      m.portfolio_return = 21/100 := by
  have hok : calculate_metrics prExampleMarket prExampleAsset =
      .ok (metrics_of prExampleMarket prExampleAsset) := by
    rw [calculate_metrics_ok_iff]
    refine ⟨by simp [prExampleMarket], by simp [prExampleAsset], ?_, rfl⟩
    simp only [prExampleAsset, List.any_cons, List.any_nil]
    norm_num [FV.is_invalid, FV.isNan, FV.isInfinite, FV.le_zero]
  exact ⟨_, hok, C6_portfolio_return_total.2 _ hok⟩

/-! ## C7 -/

/-- **C7**: on every accepted input, `beta` is the quotient of the plain
sum of products `Σ r_portfolio·r_benchmark` by the plain sum of squares
`Σ r_benchmark²` over the paired period-return sequences (no mean
centering), and `alpha = annualized_portfolio_return − 0.05 −
beta·(annualized_market_return − 0.05)`. -/
theorem C7_alpha_beta_uncentered :
    ∀ market asset : List (String × FV), ∀ m : Metrics,
      calculate_metrics market asset = .ok m →
      m.beta =
        (((period_returns (series_values asset)).zip
            (period_returns (series_values market))).map fun p => p.1 * p.2).sum /
          ((period_returns (series_values market)).map fun r => r ^ 2).sum ∧
      m.alpha = m.annualized_portfolio_return - 0.05 -
        (m.beta : ℝ) * (annualized_market_return_of market asset - 0.05) := by
  intro market asset m h
  rw [calculate_metrics_ok_iff] at h
  obtain ⟨-, -, -, rfl⟩ := h
  exact ⟨rfl, rfl⟩

/-- **C7 witness**: the alpha/beta identities instantiated on the
`[100, 110, 121]` example. -/
theorem C7_alpha_beta_uncentered_witness :
    ∃ m, calculate_metrics prExampleMarket prExampleAsset = .ok m ∧
      m.beta =
        (((period_returns (series_values prExampleAsset)).zip
            (period_returns (series_values prExampleMarket))).map fun p => p.1 * p.2).sum /
          ((period_returns (series_values prExampleMarket)).map fun r => r ^ 2).sum ∧
      m.alpha = m.annualized_portfolio_return - 0.05 -
        (m.beta : ℝ) * (annualized_market_return_of prExampleMarket prExampleAsset - 0.05) := by
  have hok : calculate_metrics prExampleMarket prExampleAsset =
      .ok (metrics_of prExampleMarket prExampleAsset) := by
    rw [calculate_metrics_ok_iff]
    refine ⟨by simp [prExampleMarket], by simp [prExampleAsset], ?_, rfl⟩
    simp only [prExampleAsset, List.any_cons, List.any_nil]
    norm_num [FV.is_invalid, FV.isNan, FV.isInfinite, FV.le_zero]
  exact ⟨_, hok, C7_alpha_beta_uncentered prExampleMarket prExampleAsset _ hok⟩

/-! ## C3 -/

/-- If `getLast?` returns a pair, that pair is in the list. -/
lemma mem_of_getLast?_eq {l : List (String × FV)} {a : String × FV}
    (h : l.getLast? = some a) : a ∈ l := by
  obtain ⟨hne, rfl⟩ := List.mem_getLast?_eq_getLast (Option.mem_def.mpr h)
  exact List.getLast_mem hne


/-- Branch equation for `process_portfolioinfo` when a last market
observation exists. -/
lemma process_portfolioinfo_getLast_some {s : DataAnalyzer} {pe : PortfolioInfoEvent}
    {latest : String × FV} (h : s.market_data_history.getLast? = some latest) :
    process_portfolioinfo s pe =
      { s with
          local_portfolio := pe.portfolio
          asset_history := s.asset_history ++ [(latest.1, pe.portfolio.asset)]
          cash_history := s.cash_history ++ [(latest.1, pe.portfolio.cash)] } := by
  unfold process_portfolioinfo
  simp only
  rw [show ({ s with local_portfolio := pe.portfolio } :
      DataAnalyzer).market_data_history = s.market_data_history from rfl, h]

/-- Branch equation for `process_portfolioinfo` when the market series is
still empty: only the cached portfolio changes. -/
lemma process_portfolioinfo_getLast_none {s : DataAnalyzer} {pe : PortfolioInfoEvent}
    (h : s.market_data_history.getLast? = none) :
    process_portfolioinfo s pe = { s with local_portfolio := pe.portfolio } := by
  unfold process_portfolioinfo
  simp only
  rw [show ({ s with local_portfolio := pe.portfolio } :
      DataAnalyzer).market_data_history = s.market_data_history from rfl, h]

/-- One dispatch step never shrinks any of the three history series. -/
lemma runStep_lengths (s : DataAnalyzer) (e : Event) :
    s.market_data_history.length ≤ (runStep s e).1.market_data_history.length ∧
    s.asset_history.length ≤ (runStep s e).1.asset_history.length ∧
    s.cash_history.length ≤ (runStep s e).1.cash_history.length := by
  cases e with
  | MarketData m => simp [runStep, process_marketevent]
  | PortfolioInfo p =>
    have hred : (runStep s (Event.PortfolioInfo p)).1 = process_portfolioinfo s p := rfl
    rw [hred]
    rcases h : s.market_data_history.getLast? with _ | latest
    · rw [process_portfolioinfo_getLast_none h]
      exact ⟨le_rfl, le_rfl, le_rfl⟩
    · rw [process_portfolioinfo_getLast_some h]
      refine ⟨le_rfl, ?_, ?_⟩ <;> simp
  | ShutDown sd => simp [runStep]
  | OrderPlace o => simp [runStep]

/-- One dispatch step preserves the alignment invariant. -/
lemma runStep_preserves_tsAligned (s : DataAnalyzer) (e : Event)
    (h : tsAligned s) : tsAligned (runStep s e).1 := by
  obtain ⟨ha, hc⟩ := h
  cases e with
  | MarketData m =>
    constructor
    · intro p hp
      have hp' : p ∈ s.asset_history := hp
      show p.1 ∈ (s.market_data_history ++ [(m.timestamp, m.close)]).map Prod.fst
      rw [List.map_append]
      exact List.mem_append_left _ (ha p hp')
    · intro p hp
      have hp' : p ∈ s.cash_history := hp
      show p.1 ∈ (s.market_data_history ++ [(m.timestamp, m.close)]).map Prod.fst
      rw [List.map_append]
      exact List.mem_append_left _ (hc p hp')
  | PortfolioInfo pe =>
    have hred : (runStep s (Event.PortfolioInfo pe)).1 = process_portfolioinfo s pe := rfl
    rw [hred]
    rcases hl : s.market_data_history.getLast? with _ | latest
    · rw [process_portfolioinfo_getLast_none hl]
      exact ⟨ha, hc⟩
    · rw [process_portfolioinfo_getLast_some hl]
      have hmem : latest.1 ∈ s.market_data_history.map Prod.fst :=
        List.mem_map_of_mem Prod.fst (mem_of_getLast?_eq hl)
      constructor
      · intro p hp
        rcases List.mem_append.mp hp with hp | hp
        · exact ha p hp
        · rw [List.mem_singleton] at hp
          subst hp
          exact hmem
      · intro p hp
        rcases List.mem_append.mp hp with hp | hp
        · exact hc p hp
        · rw [List.mem_singleton] at hp
          subst hp
          exact hmem
  | ShutDown sd => exact ⟨ha, hc⟩
  | OrderPlace o => exact ⟨ha, hc⟩

/-- The dispatch loop preserves the alignment invariant. -/
lemma runLoop_preserves_tsAligned :
    ∀ (evs : List Event) (s : DataAnalyzer), tsAligned s → tsAligned (runLoop s evs).1 := by
  intro evs
  induction evs with
  | nil => intro s h; exact h
  | cons e rest ih =>
    intro s h
    simp only [runLoop]
    by_cases hb : (runStep s e).2
    · rw [if_pos hb]
      exact runStep_preserves_tsAligned s e h
    · rw [if_neg hb]
      exact ih _ (runStep_preserves_tsAligned s e h)

/-- The dispatch loop never shrinks any of the three history series. -/
lemma runLoop_lengths :
    ∀ (evs : List Event) (s : DataAnalyzer),
      s.market_data_history.length ≤ (runLoop s evs).1.market_data_history.length ∧
      s.asset_history.length ≤ (runLoop s evs).1.asset_history.length ∧
      s.cash_history.length ≤ (runLoop s evs).1.cash_history.length := by
  intro evs
  induction evs with
  | nil => intro s; exact ⟨le_rfl, le_rfl, le_rfl⟩
  | cons e rest ih =>
    intro s
    simp only [runLoop]
    by_cases hb : (runStep s e).2
    · rw [if_pos hb]
      exact runStep_lengths s e
    · rw [if_neg hb]
      obtain ⟨h1, h2, h3⟩ := runStep_lengths s e
      obtain ⟨g1, g2, g3⟩ := ih (runStep s e).1
      exact ⟨le_trans h1 g1, le_trans h2 g2, le_trans h3 g3⟩

/-- **C3**: `process_portfolioinfo` appends exactly one entry carrying the
latest market timestamp to each of the asset and cash series when a market
observation exists, is a pure portfolio update otherwise, all three series
lengths are non-decreasing under any event sequence, and from the initial
state every asset/cash timestamp is some market timestamp. -/
theorem C3_portfolio_alignment :
    (∀ (s : DataAnalyzer) (e : PortfolioInfoEvent) (latest : String × FV),
        s.market_data_history.getLast? = some latest →
        process_portfolioinfo s e =
          { s with
              local_portfolio := e.portfolio
              asset_history := s.asset_history ++ [(latest.1, e.portfolio.asset)]
              cash_history := s.cash_history ++ [(latest.1, e.portfolio.cash)] }) ∧
    (∀ (s : DataAnalyzer) (e : PortfolioInfoEvent),
        s.market_data_history = [] →
        process_portfolioinfo s e = { s with local_portfolio := e.portfolio }) ∧
    (∀ (s : DataAnalyzer) (e : Event),
        s.market_data_history.length ≤ (runStep s e).1.market_data_history.length ∧
        s.asset_history.length ≤ (runStep s e).1.asset_history.length ∧
        s.cash_history.length ≤ (runStep s e).1.cash_history.length) ∧
    (∀ (evs : List Event) (s : DataAnalyzer),
        s.market_data_history.length ≤ (runLoop s evs).1.market_data_history.length ∧
        s.asset_history.length ≤ (runLoop s evs).1.asset_history.length ∧
        s.cash_history.length ≤ (runLoop s evs).1.cash_history.length) ∧
    (∀ evs : List Event, tsAligned (runLoop DataAnalyzer.new evs).1) := by
  refine ⟨?_, ?_, runStep_lengths, runLoop_lengths, ?_⟩
  · intro s e latest h
    exact process_portfolioinfo_getLast_some h
  · intro s e h
    exact process_portfolioinfo_getLast_none (by rw [h]; rfl)
  · intro evs
    exact runLoop_preserves_tsAligned evs DataAnalyzer.new
      ⟨by simp [DataAnalyzer.new], by simp [DataAnalyzer.new]⟩

/-- **C3 witness**: after one market observation, a portfolio event
appends exactly the aligned asset and cash entries. -/
theorem C3_portfolio_alignment_witness :
    process_portfolioinfo
      { market_data_history := [("2024-01-02", FV.fin 100)]
        asset_history := []
        cash_history := []
        local_portfolio := Portfolio.new (.fin 0) }
      ⟨1, { asset := .fin 1000, cash := .fin 400, available_cash := .fin 400, positions := [] }⟩ =
      { market_data_history := [("2024-01-02", FV.fin 100)]
        asset_history := [("2024-01-02", FV.fin 1000)]
        cash_history := [("2024-01-02", FV.fin 400)]
        local_portfolio :=
          { asset := .fin 1000, cash := .fin 400, available_cash := .fin 400, positions := [] } } := by
  rw [C3_portfolio_alignment.1
    { market_data_history := [("2024-01-02", FV.fin 100)]
      asset_history := []
      cash_history := []
      local_portfolio := Portfolio.new (.fin 0) }
    ⟨1, { asset := .fin 1000, cash := .fin 400, available_cash := .fin 400, positions := [] }⟩
    ("2024-01-02", FV.fin 100) rfl]
  rfl

/-! ## C8 -/

/-- **C8**: a dispatch step breaks the loop exactly on a shutdown event;
an unrecognized event kind (`OrderPlace`) leaves the state untouched and
the loop running; over any delivered sequence, the loop terminates iff the
sequence contains a shutdown event. -/
theorem C8_loop_terminates_only_on_shutdown :
    (∀ (s : DataAnalyzer) (e : Event), (runStep s e).2 = true ↔ e.isShutDown = true) ∧
    (∀ (s : DataAnalyzer) (o : OrderPlaceEvent), runStep s (.OrderPlace o) = (s, false)) ∧
    (∀ (s : DataAnalyzer) (evs : List Event),
        (runLoop s evs).2 = true ↔ ∃ e ∈ evs, e.isShutDown = true) := by
  have hstep : ∀ (s : DataAnalyzer) (e : Event),
      (runStep s e).2 = true ↔ e.isShutDown = true := by
    intro s e
    cases e <;> simp [runStep, Event.isShutDown]
  refine ⟨hstep, fun s o => rfl, ?_⟩
  intro s evs
  induction evs generalizing s with
  | nil => simp [runLoop]
  | cons e rest ih =>
    simp only [runLoop]
    by_cases hb : (runStep s e).2
    · rw [if_pos hb]
      simp only [List.mem_cons]
      exact iff_of_true (by simp) ⟨e, Or.inl rfl, (hstep s e).mp hb⟩
    · rw [if_neg hb]
      rw [ih]
      constructor
      · rintro ⟨x, hx, hxs⟩
        exact ⟨x, List.mem_cons_of_mem _ hx, hxs⟩
      · rintro ⟨x, hx, hxs⟩
        rcases List.mem_cons.mp hx with rfl | hx
        · exact absurd ((hstep s x).mpr hxs) hb
        · exact ⟨x, hx, hxs⟩

/-- **C8 witness**: a sequence of one market event, one unrecognized order
event and one shutdown terminates the loop. -/
theorem C8_loop_terminates_only_on_shutdown_witness :
    (runLoop DataAnalyzer.new
      [.MarketData ⟨1, "SPY", "2024-01-02", .fin 1, .fin 100, .fin 1, .fin 1, 1000⟩,
       .OrderPlace ⟨1, .LimitPrice ⟨"SPY", 10, .fin 99, .buy⟩⟩,
       .ShutDown ⟨1⟩]).2 = true := by
  apply (C8_loop_terminates_only_on_shutdown.2.2 _ _).mpr
  exact ⟨.ShutDown ⟨1⟩, by simp, rfl⟩

/-! ## C4 -/

/-- The memo skip: when both lengths match the memoized pair, `plot`
reports "no update", succeeds, and leaves the memo unchanged. -/
lemma plot_skip_of_lengths (market asset cash : List (String × FV)) (ll : ℕ × ℕ)
    (path : String) (h1 : market.length = ll.1) (h2 : asset.length = ll.2) :
    plot market asset cash ll path = (.ok .noUpdate, ll) := by
  unfold plot
  rw [if_pos ⟨h1, h2⟩]

/-- After any `plot` call, the memo holds the current series lengths. -/
lemma plot_snd (market asset cash : List (String × FV)) (ll : ℕ × ℕ) (path : String) :
    market.length = (plot market asset cash ll path).2.1 ∧
    asset.length = (plot market asset cash ll path).2.2 := by
  unfold plot
  split_ifs with h h2
  · exact ⟨h.1, h.2⟩
  · simp
  · rcases hm : calculate_metrics market asset with e | m <;> simp [hm]

/-- **C4**: when `plot` is invoked with both series lengths equal to the
memoized pair it reports "no update", performs no metrics computation or
rendering, and returns success with the memo unchanged; consequently a
repeat invocation with unchanged series after a successful call is such a
skip. -/
theorem C4_plot_skip_no_update :
    (∀ (market asset cash : List (String × FV)) (ll : ℕ × ℕ) (path : String),
        market.length = ll.1 → asset.length = ll.2 →
        plot market asset cash ll path = (.ok .noUpdate, ll)) ∧
    (∀ (market asset cash : List (String × FV)) (ll : ℕ × ℕ) (path : String)
        (r : PlotAction),
        (plot market asset cash ll path).1 = .ok r →
        plot market asset cash (plot market asset cash ll path).2 path =
          (.ok .noUpdate, (plot market asset cash ll path).2)) := by
  refine ⟨plot_skip_of_lengths, ?_⟩
  intro market asset cash ll path r _h
  obtain ⟨h1, h2⟩ := plot_snd market asset cash ll path
  exact plot_skip_of_lengths _ _ _ _ _ h1 h2

/-- **C4 witness**: with memo `(5, 5)` matching the example series
lengths, `plot` skips with success, and invoking again after that
successful call skips again. -/
theorem C4_plot_skip_no_update_witness :
    plot ddExampleMarket ddExampleAsset [] (5, 5) "out.png" = (.ok .noUpdate, (5, 5)) ∧
    plot ddExampleMarket ddExampleAsset []
        (plot ddExampleMarket ddExampleAsset [] (5, 5) "out.png").2 "out.png" =
      (.ok .noUpdate, (plot ddExampleMarket ddExampleAsset [] (5, 5) "out.png").2) := by
  have h1 : plot ddExampleMarket ddExampleAsset [] (5, 5) "out.png" =
      (.ok .noUpdate, (5, 5)) :=
    C4_plot_skip_no_update.1 _ _ _ _ _ (by simp [ddExampleMarket]) (by simp [ddExampleAsset])
  exact ⟨h1, C4_plot_skip_no_update.2 _ _ _ _ _ .noUpdate (by rw [h1])⟩

/-! ## C10 -/

/-- **C10**: whenever `plot` proceeds past the memo skip, the memo is
overwritten with the current lengths before the metrics computation is
attempted; hence even if the metrics computation fails, an immediately
repeated call with the same series reports "no update" and succeeds
instead of retrying the failed cycle. -/
theorem C10_memo_overwritten_before_metrics :
    ∀ (market asset cash : List (String × FV)) (ll : ℕ × ℕ) (path : String),
      ¬(market.length = ll.1 ∧ asset.length = ll.2) →
      (plot market asset cash ll path).2 = (market.length, asset.length) ∧
      ∀ e : AnalyzerError,
        (plot market asset cash ll path).1 = .error e →
        plot market asset cash (plot market asset cash ll path).2 path =
          (.ok .noUpdate, (plot market asset cash ll path).2) := by
  intro market asset cash ll path h
  constructor
  · unfold plot
    rw [if_neg h]
    split_ifs with h2
    · rfl
    · rcases hm : calculate_metrics market asset with e | m <;> simp [hm]
  · intro e _he
    obtain ⟨h1, h2⟩ := plot_snd market asset cash ll path
    exact plot_skip_of_lengths _ _ _ _ _ h1 h2

/-- **C10 witness**: with a singleton market series and a singleton asset
series holding the invalid value `-5`, the first `plot` call fails with
`InvalidSeriesValue`, yet the memo now holds `(1, 1)` and the repeat call
reports "no update" and succeeds. -/
theorem C10_memo_overwritten_before_metrics_witness :
    (plot [("d1", FV.fin 100)] [("d1", FV.fin (-5))] [] (0, 0) "out.png").1 =
      .error .invalidSeriesValue ∧
    (plot [("d1", FV.fin 100)] [("d1", FV.fin (-5))] [] (0, 0) "out.png").2 = (1, 1) ∧
    plot [("d1", FV.fin 100)] [("d1", FV.fin (-5))] [] (1, 1) "out.png" =
      (.ok .noUpdate, (1, 1)) := by
  have happ := C10_memo_overwritten_before_metrics
    [("d1", FV.fin 100)] [("d1", FV.fin (-5))] [] (0, 0) "out.png" (by simp)
  have hmetrics : calculate_metrics [("d1", FV.fin 100)] [("d1", FV.fin (-5))] =
      .error .invalidSeriesValue := by
    unfold calculate_metrics
    rw [if_neg (by simp), if_pos ?_]
    simp only [List.any_cons, List.any_nil]
    norm_num [FV.is_invalid, FV.isNan, FV.isInfinite, FV.le_zero]
  have hfst : (plot [("d1", FV.fin 100)] [("d1", FV.fin (-5))] [] (0, 0) "out.png").1 =
      .error .invalidSeriesValue := by
    unfold plot
    rw [if_neg (by simp), if_neg (by simp)]
    simp [hmetrics]
  have h2 : (plot [("d1", FV.fin 100)] [("d1", FV.fin (-5))] [] (0, 0) "out.png").2 =
      (1, 1) := by
    rw [happ.1]
    rfl
  have h3 := happ.2 .invalidSeriesValue hfst
  rw [h2] at h3
  exact ⟨hfst, h2, h3⟩

/-! ## C9 -/


/-- `calculate_metrics` accepts the total-return example series. -/
lemma prExample_metrics_ok :
    calculate_metrics prExampleMarket prExampleAsset =
      .ok (metrics_of prExampleMarket prExampleAsset) := by
  rw [calculate_metrics_ok_iff]
  refine ⟨by simp [prExampleMarket], by simp [prExampleAsset], ?_, rfl⟩
  simp only [prExampleAsset, List.any_cons, List.any_nil]
  norm_num [FV.is_invalid, FV.isNan, FV.isInfinite, FV.le_zero]

/-- **C9 counterexample**: on the initial (empty-history) state the
shutdown pass writes *no* raster image at all — the dummy memo `(0, 0)`
matches the empty lengths and the pass skips — refuting "writes exactly
one raster image". -/
theorem C9_counterexample :
    shut_down DataAnalyzer.new = (.ok .noUpdate, (0, 0)) ∧
    ∀ (path : String) (rx ry : ℕ),
      (shut_down DataAnalyzer.new).1 ≠ .ok (.rendered path rx ry) := by
  have h : shut_down DataAnalyzer.new = (.ok .noUpdate, (0, 0)) := by
    unfold shut_down
    exact plot_skip_of_lengths _ _ _ _ _ rfl rfl
  refine ⟨h, fun path rx ry => ?_⟩
  rw [h]
  simp

/-- **C9 (amended)**: the shutdown render pass writes at most one raster
image; whenever it renders one, the canvas is the fixed 3840×2160 and the
output path is the module-chosen constant `"sample_output.png"` (the
module, not the host process, chooses it); with empty histories or a
failing metrics computation no image is written. -/
theorem C9_render_fixed_canvas_and_path :
    ∀ (s : DataAnalyzer) (path : String) (rx ry : ℕ),
      (shut_down s).1 = .ok (.rendered path rx ry) →
      path = "sample_output.png" ∧ rx = 3840 ∧ ry = 2160 := by
  intro s path rx ry h
  unfold shut_down plot at h
  split_ifs at h with h1 h2
  · simp at h
  · simp at h
  · revert h
    rcases hm : calculate_metrics s.market_data_history s.asset_history with e | m
    · simp [hm]
    · intro h
      simp only [hm] at h
      simp only [Except.ok.injEq, PlotAction.rendered.injEq] at h
      rcases h with ⟨ha, hb, hc⟩
      exact ⟨ha.symm, hb.symm, hc.symm⟩

/-- **C9 witness**: a state with the example histories renders exactly the
3840×2160 image at `"sample_output.png"`. -/
theorem C9_render_fixed_canvas_and_path_witness :
    (shut_down renderExampleState).1 = .ok (.rendered "sample_output.png" 3840 2160) ∧
    "sample_output.png" = "sample_output.png" ∧
    (3840 : ℕ) = 3840 ∧ (2160 : ℕ) = 2160 := by
  have h : (shut_down renderExampleState).1 =
      .ok (.rendered "sample_output.png" 3840 2160) := by
    show (plot prExampleMarket prExampleAsset renderExampleState.cash_history
      (0, 0) "sample_output.png").1 = _
    unfold plot
    rw [if_neg (by simp [prExampleMarket]), if_neg (by simp [prExampleMarket])]
    simp [prExample_metrics_ok]
  have hc := C9_render_fixed_canvas_and_path renderExampleState
    "sample_output.png" 3840 2160 h
  exact ⟨h, hc.1, hc.2.1, hc.2.2⟩
